import Mathlib

/-!
Verification development for the Finance-Flow MVP recurring-transaction
materializer, retroactive update propagator and aggregation engine.

The TypeScript source works with calendar dates (ISO strings parsed by
date-fns `parseISO`, and `Date` values produced by `startOfMonth`,
`endOfMonth`, `addMonths`).  All dates relevant to the logic are
day-granular, so a date is embedded as a `(year, month, day)` triple of
integers.  Months are also addressed by a linear month index
`year * 12 + month - 1`, which is what date-fns month arithmetic
computes.  Monetary amounts (JS numbers) are embedded as rationals.
-/

namespace FinanceFlow

/-- A calendar date triple.  The `day` may be out of range for the month
(the source builds date strings like 2024-02-31 without validation);
`validDate` below captures validity, mirroring the check done by
date-fns `parseISO`, which yields an Invalid Date for such strings. -/
structure Date where
  y : ℤ
  m : ℤ
  d : ℤ
deriving DecidableEq

/-- Gregorian leap year, as computed by the JS Date type. -/
def isLeapYear (y : ℤ) : Prop := y % 4 = 0 ∧ (y % 100 ≠ 0 ∨ y % 400 = 0)

instance (y : ℤ) : Decidable (isLeapYear y) := by unfold isLeapYear; infer_instance

/-- Number of days of a (year, month) pair, as used by date-fns
endOfMonth and by JS Date normalization. -/
def daysInMonth (y m : ℤ) : ℤ :=
  if m = 2 then (if isLeapYear y then 29 else 28)
  else if m = 4 ∨ m = 6 ∨ m = 9 ∨ m = 11 then 30
  else 31

/-- A date string is a valid calendar date (this is the validation done
by date-fns parseISO; a string such as 2024-02-31 fails it). -/
def validDate (dt : Date) : Prop :=
  1 ≤ dt.m ∧ dt.m ≤ 12 ∧ 1 ≤ dt.d ∧ dt.d ≤ daysInMonth dt.y dt.m

instance (dt : Date) : Decidable (validDate dt) := by unfold validDate; infer_instance

/-- Linear month index of a date: year * 12 + (month - 1). -/
def monthIdx (dt : Date) : ℤ := dt.y * 12 + dt.m - 1

/-- First day of the month with the given linear index (the value
date-fns startOfMonth produces for any date inside that month). -/
def monthStart (i : ℤ) : Date := ⟨i / 12, i % 12 + 1, 1⟩

/-- Last day of the month with the given linear index (the value
date-fns endOfMonth produces for any date inside that month). -/
def monthEnd (i : ℤ) : Date :=
  ⟨i / 12, i % 12 + 1, daysInMonth (i / 12) (i % 12 + 1)⟩

/-- date-fns startOfMonth on a date value. -/
def startOfMonth (dt : Date) : Date := ⟨dt.y, dt.m, 1⟩

/-- date-fns endOfMonth on a date value. -/
def endOfMonth (dt : Date) : Date := ⟨dt.y, dt.m, daysInMonth dt.y dt.m⟩

/-- date-fns addMonths: move by n months, clamping the day to the last
valid day of the target month. -/
def addMonths (dt : Date) (n : ℤ) : Date :=
  let i := monthIdx dt + n
  ⟨i / 12, i % 12 + 1, min dt.d (daysInMonth (i / 12) (i % 12 + 1))⟩

/-- Day-granular strict order on dates (timestamp order of normalized
JS dates). -/
def dateLt (a b : Date) : Prop :=
  monthIdx a < monthIdx b ∨ (monthIdx a = monthIdx b ∧ a.d < b.d)

instance (a b : Date) : Decidable (dateLt a b) := by unfold dateLt; infer_instance

/-- Day-granular order on dates. -/
def dateLe (a b : Date) : Prop :=
  monthIdx a < monthIdx b ∨ (monthIdx a = monthIdx b ∧ a.d ≤ b.d)

instance (a b : Date) : Decidable (dateLe a b) := by unfold dateLe; infer_instance

/-- date-fns parseISO on a stored date triple: a valid date parses to
itself, an invalid one (e.g. 2024-02-31) yields Invalid Date, embedded
as none. -/
def parseISO (dt : Date) : Option Date :=
  if validDate dt then some dt else none

/-- date-fns isWithinInterval applied to a parseISO result.  An Invalid
Date (none) compares as NaN in JS, so every comparison is false. -/
def isWithinInterval (o : Option Date) (lo hi : Date) : Bool :=
  match o with
  | none => false
  | some x => decide (dateLe lo x) && decide (dateLe x hi)

inductive TxType where
  | income
  | expense
deriving DecidableEq

/-- Transaction record (src/types.ts together with the fields used by
src/App.tsx: isRecurring and recurringId). -/
structure Transaction where
  id : String
  date : Date
  description : String
  amount : ℚ
  categoryId : String
  type : TxType
  isRecurring : Bool
  recurringId : Option String
deriving DecidableEq

/-- Recurring template record (RecurringTransaction in the source). -/
structure RecurringTemplate where
  id : String
  description : String
  amount : ℚ
  categoryId : String
  type : TxType
  dayOfMonth : ℤ
  active : Bool
  startDate : Option Date
  endDate : Option Date
deriving DecidableEq

/-- Zero-padding of a month number to two characters, as done by
String(...).padStart(2, '0') for values in 1..12. -/
def pad2 (n : ℤ) : String :=
  if n < 10 then "0" ++ toString n else toString n

/-- generateRecurringTransaction from src/App.tsx.  The date argument is
the month cursor (a month start).  The produced date triple is
(year, month, item.dayOfMonth) verbatim; the source performs no
clamping of the day, so the triple can be an invalid calendar date. -/
def generateRecurringTransaction (item : RecurringTemplate) (date : Date) : Transaction :=
  { id := "rec-commit-" ++ item.id ++ "-" ++ toString date.y ++ "-" ++ pad2 date.m
    date := ⟨date.y, date.m, item.dayOfMonth⟩
    description := item.description
    amount := if item.type = TxType.expense then -|item.amount| else |item.amount|
    categoryId := item.categoryId
    type := item.type
    isRecurring := true
    recurringId := some item.id }

/-- The dedup check of the materialization loop: some existing
transaction stems from this template and falls inside month i. -/
def alreadyLaunched (txs : List Transaction) (item : RecurringTemplate) (i : ℤ) : Bool :=
  txs.any fun t =>
    decide (t.recurringId = some item.id) &&
    isWithinInterval (parseISO t.date) (monthStart i) (monthEnd i)

/-- One active template's while loop from the materialization useEffect
in src/App.tsx, walking month indices upward.  The JS loop guard is
isBefore(currentCheck, futureLimit) where currentCheck is a month start
at midnight and futureLimit = addMonths(today, 1) carries the wall-clock
time of day of `new Date()`; at day granularity that guard holds exactly
when the month start is less than or equal to futureLimit.  The loop is
expressed with a fuel argument large enough (supplied by
materializeTemplate) that the recursion always ends by the guard or the
break, never by fuel exhaustion. -/
def materializeLoop (item : RecurringTemplate) (txs : List Transaction)
    (futureLimit : Date) : ℕ → ℤ → List Transaction
  | 0, _ => []
  | fuel + 1, i =>
    if dateLe (monthStart i) futureLimit then
      -- break: item.endDate && isAfter(currentCheck, parseISO(item.endDate))
      if (match item.endDate with
          | some e => decide (dateLt e (monthStart i))
          | none => false) then []
      else
        (if alreadyLaunched txs item i then []
         else [generateRecurringTransaction item (monthStart i)]) ++
        materializeLoop item txs futureLimit fuel (i + 1)
    else []

/-- First month index scanned for a template: the month of startDate
when present (the source then applies startOfMonth to it), otherwise
the month of startOfMonth(addMonths(today, -12)). -/
def scanStartIdx (item : RecurringTemplate) (today : Date) : ℤ :=
  match item.startDate with
  | some sd => monthIdx sd
  | none => monthIdx today - 12

/-- Pending launches contributed by one template in a materialization
run (inactive templates contribute nothing). -/
def materializeTemplate (item : RecurringTemplate) (txs : List Transaction)
    (today : Date) : List Transaction :=
  if item.active then
    let futureLimit := addMonths today 1
    let s := scanStartIdx item today
    materializeLoop item txs futureLimit ((monthIdx futureLimit + 1 - s).toNat + 1) s
  else []

/-- The materialization useEffect of src/App.tsx as a pure function:
the list of pending launches for the given templates, existing
transactions and current date. -/
def materialize (templates : List RecurringTemplate) (txs : List Transaction)
    (today : Date) : List Transaction :=
  templates.flatMap fun item => materializeTemplate item txs today

/-! ### Basic facts about the date model -/

theorem monthIdx_monthStart (i : ℤ) : monthIdx (monthStart i) = i := by
  simp only [monthIdx, monthStart]
  omega

theorem monthIdx_monthEnd (i : ℤ) : monthIdx (monthEnd i) = i := by
  simp only [monthIdx, monthEnd]
  omega

theorem monthIdx_addMonths (dt : Date) (n : ℤ) :
    monthIdx (addMonths dt n) = monthIdx dt + n := by
  simp only [monthIdx, addMonths]
  omega

theorem daysInMonth_pos (y m : ℤ) : 0 < daysInMonth y m := by
  unfold daysInMonth
  split
  · split <;> norm_num
  · split <;> norm_num

theorem ym_of_monthIdx {dt : Date} (hm1 : 1 ≤ dt.m) (hm2 : dt.m ≤ 12) :
    dt.y = monthIdx dt / 12 ∧ dt.m = monthIdx dt % 12 + 1 := by
  unfold monthIdx
  constructor <;> omega

theorem dateLe_monthStart_iff {dt : Date} (hd : 1 ≤ dt.d) (a : ℤ) :
    dateLe (monthStart a) dt ↔ a ≤ monthIdx dt := by
  unfold dateLe
  rw [monthIdx_monthStart]
  have h1 : (monthStart a).d = 1 := rfl
  omega

theorem dateLe_monthEnd_iff {dt : Date} (h : validDate dt) (b : ℤ) :
    dateLe dt (monthEnd b) ↔ monthIdx dt ≤ b := by
  obtain ⟨hm1, hm2, hd1, hd2⟩ := h
  unfold dateLe
  rw [monthIdx_monthEnd]
  constructor
  · rintro (h1 | ⟨he, _⟩) <;> omega
  · intro hle
    rcases lt_or_eq_of_le hle with h1 | h1
    · exact Or.inl h1
    · refine Or.inr ⟨h1, ?_⟩
      obtain ⟨hy, hm⟩ := ym_of_monthIdx hm1 hm2
      show dt.d ≤ (monthEnd b).d
      have hE : (monthEnd b).d = daysInMonth (b / 12) (b % 12 + 1) := rfl
      rw [hE, ← h1, ← hy, ← hm]
      exact hd2

/-- A parsed date lies in the interval spanned by month indices a..b
exactly when it is a valid date whose month index is in a..b. -/
theorem isWithinInterval_month_iff (dt : Date) (a b : ℤ) :
    isWithinInterval (parseISO dt) (monthStart a) (monthEnd b) = true ↔
      validDate dt ∧ a ≤ monthIdx dt ∧ monthIdx dt ≤ b := by
  unfold isWithinInterval parseISO
  by_cases h : validDate dt
  · rw [if_pos h]
    simp only [Bool.and_eq_true, decide_eq_true_eq]
    rw [dateLe_monthStart_iff h.2.2.1, dateLe_monthEnd_iff h]
    tauto
  · rw [if_neg h]
    simp [h]

theorem monthIdx_generated (item : RecurringTemplate) (dt : Date) :
    monthIdx (generateRecurringTransaction item dt).date = monthIdx dt := rfl

/-! ### Structure of the materialization loop -/

/-- Every transaction produced by the loop comes from a month index j at
or after the cursor, inside the future limit, not past the end date,
with no existing transaction for that template in month j. -/
theorem mem_materializeLoop {item : RecurringTemplate} {txs : List Transaction}
    {fl : Date} {t : Transaction} :
    ∀ {fuel : ℕ} {i : ℤ}, t ∈ materializeLoop item txs fl fuel i →
    ∃ j, i ≤ j ∧ dateLe (monthStart j) fl ∧
      (∀ e, item.endDate = some e → ¬ dateLt e (monthStart j)) ∧
      alreadyLaunched txs item j = false ∧
      t = generateRecurringTransaction item (monthStart j) := by
  intro fuel
  induction fuel with
  | zero => intro i h; simp [materializeLoop] at h
  | succ n ih =>
    intro i h
    rw [materializeLoop] at h
    split at h
    · split at h
      · simp at h
      · rename_i hguard hbreak
        rw [List.mem_append] at h
        rcases h with h | h
        · refine ⟨i, le_refl i, hguard, ?_, ?_, ?_⟩
          · intro e he
            rw [he] at hbreak
            simpa using hbreak
          · by_cases hAL : alreadyLaunched txs item i
            · rw [if_pos hAL] at h; simp at h
            · simpa using hAL
          · by_cases hAL : alreadyLaunched txs item i
            · rw [if_pos hAL] at h; simp at h
            · rw [if_neg hAL] at h; simpa using h
        · obtain ⟨j, hij, rest⟩ := ih h
          exact ⟨j, by omega, rest⟩
    · simp at h

/-- The loop guard is monotone: if it admits month j it admits every
earlier month. -/
theorem guard_mono {fl : Date} {i j : ℤ} (hij : i ≤ j)
    (hj : dateLe (monthStart j) fl) : dateLe (monthStart i) fl := by
  unfold dateLe at hj ⊢
  rw [monthIdx_monthStart] at hj ⊢
  have h1 : (monthStart i).d = 1 := rfl
  have h2 : (monthStart j).d = 1 := rfl
  omega

/-- The endDate break is monotone the same way: if month j is not past
the end date, no earlier month is. -/
theorem break_mono {e : Date} {i j : ℤ} (hij : i ≤ j)
    (hj : ¬ dateLt e (monthStart j)) : ¬ dateLt e (monthStart i) := by
  unfold dateLt at hj ⊢
  rw [monthIdx_monthStart] at hj ⊢
  have h1 : (monthStart i).d = 1 := rfl
  have h2 : (monthStart j).d = 1 := rfl
  omega

/-- Completeness of the loop: every month index j at or after the
cursor that passes the guard, is not past the end date and has no
existing launch gets its transaction generated, provided the fuel
reaches it. -/
theorem materializeLoop_generates {item : RecurringTemplate}
    {txs : List Transaction} {fl : Date} :
    ∀ (fuel : ℕ) (i j : ℤ), (j - i).toNat < fuel → i ≤ j →
      dateLe (monthStart j) fl →
      (∀ e, item.endDate = some e → ¬ dateLt e (monthStart j)) →
      alreadyLaunched txs item j = false →
      generateRecurringTransaction item (monthStart j) ∈
        materializeLoop item txs fl fuel i := by
  intro fuel
  induction fuel with
  | zero => intro i j hfuel _ _ _ _; omega
  | succ n ih =>
    intro i j hfuel hij hguard hend hAL
    rw [materializeLoop]
    rw [if_pos (guard_mono hij hguard)]
    have hbreak : (match item.endDate with
        | some e => decide (dateLt e (monthStart i))
        | none => false) = false := by
      cases he : item.endDate with
      | none => rfl
      | some e =>
        simpa using break_mono hij (hend e he)
    rw [if_neg (by rw [hbreak]; exact Bool.false_ne_true)]
    rw [List.mem_append]
    rcases eq_or_lt_of_le hij with heq | hlt
    · subst heq
      left
      rw [if_neg (by rw [hAL]; exact Bool.false_ne_true)]
      exact List.mem_singleton.mpr rfl
    · right
      exact ih (i + 1) j (by omega) (by omega) hguard hend hAL

/-- The dedup check only grows when more transactions are present. -/
theorem alreadyLaunched_append_left {X out : List Transaction}
    {item : RecurringTemplate} {i : ℤ} (h : alreadyLaunched X item i = true) :
    alreadyLaunched (X ++ out) item i = true := by
  unfold alreadyLaunched at h ⊢
  rw [List.any_append, h, Bool.true_or]

/-- The dedup check also succeeds when the witness sits in the appended
part of the ledger. -/
theorem alreadyLaunched_append_right {X out : List Transaction}
    {item : RecurringTemplate} {i : ℤ} (h : alreadyLaunched out item i = true) :
    alreadyLaunched (X ++ out) item i = true := by
  unfold alreadyLaunched at h ⊢
  rw [List.any_append, h, Bool.or_true]

/-- A transaction generated for month i and carrying a valid date makes
the dedup check for month i succeed once it is part of the ledger. -/
theorem alreadyLaunched_of_generated_mem {out : List Transaction}
    {item : RecurringTemplate} {i : ℤ}
    (hmem : generateRecurringTransaction item (monthStart i) ∈ out)
    (hval : validDate (generateRecurringTransaction item (monthStart i)).date) :
    alreadyLaunched out item i = true := by
  unfold alreadyLaunched
  rw [List.any_eq_true]
  refine ⟨generateRecurringTransaction item (monthStart i), hmem, ?_⟩
  rw [Bool.and_eq_true, decide_eq_true_eq]
  refine ⟨rfl, ?_⟩
  rw [isWithinInterval_month_iff]
  refine ⟨hval, ?_, ?_⟩ <;>
    rw [monthIdx_generated, monthIdx_monthStart]

/-- Core of the idempotence analysis: if every launch the loop produces
over ledger X is already part of out, and every member of out carries a
valid calendar date, then the same loop over the extended ledger
X ++ out produces nothing. -/
theorem materializeLoop_append_eq_nil {item : RecurringTemplate}
    {X out : List Transaction} {fl : Date}
    (hval : ∀ t ∈ out, validDate t.date) :
    ∀ (fuel : ℕ) (i : ℤ),
      (∀ t ∈ materializeLoop item X fl fuel i, t ∈ out) →
      materializeLoop item (X ++ out) fl fuel i = [] := by
  intro fuel
  induction fuel with
  | zero => intro i _; rfl
  | succ n ih =>
    intro i hsub
    rw [materializeLoop] at hsub ⊢
    split
    · rename_i hguard
      rw [if_pos hguard] at hsub
      split
      · rfl
      · rename_i hbreak
        rw [if_neg hbreak] at hsub
        have hAL2 : alreadyLaunched (X ++ out) item i = true := by
          by_cases hAL : alreadyLaunched X item i
          · exact alreadyLaunched_append_left hAL
          · have hgen : generateRecurringTransaction item (monthStart i) ∈ out := by
              apply hsub
              rw [List.mem_append, if_neg hAL]
              exact Or.inl (List.mem_singleton.mpr rfl)
            exact alreadyLaunched_append_right
              (alreadyLaunched_of_generated_mem hgen (hval _ hgen))
        rw [if_pos hAL2, List.nil_append]
        apply ih
        intro t ht
        apply hsub
        rw [List.mem_append]
        exact Or.inr ht
    · rfl

/-- Unfolded form of materializeTemplate for an active template. -/
theorem materializeTemplate_active {item : RecurringTemplate}
    {txs : List Transaction} {today : Date} (h : item.active = true) :
    materializeTemplate item txs today =
      materializeLoop item txs (addMonths today 1)
        ((monthIdx (addMonths today 1) + 1 - scanStartIdx item today).toNat + 1)
        (scanStartIdx item today) := by
  unfold materializeTemplate
  rw [if_pos h]

/-! ### Aggregation engine -/

/-- The reduce with Math.abs pattern used throughout the aggregation
code: sum of absolute amounts of a transaction list. -/
def sumAbs (txs : List Transaction) : ℚ := (txs.map fun t => |t.amount|).sum

/-- category12MonthAverage from src/components/PlanningView.tsx,
specialized to one category: expenses inside
[startOfMonth(subMonths(now, 12)), endOfMonth(subMonths(now, 1))] of
that category, summed in absolute value and divided by the constant 12.
The source accumulates a per-category map and reads it back with a
zero default; for a single category that is the same as filtering on
the category and summing. -/
def category12MonthAverage (txs : List Transaction) (now : Date) (cat : String) : ℚ :=
  sumAbs (txs.filter fun t =>
    decide (t.type = TxType.expense) &&
    isWithinInterval (parseISO t.date)
      (startOfMonth (addMonths now (-12))) (endOfMonth (addMonths now (-1))) &&
    decide (t.categoryId = cat)) / 12

/-- The historical average of monthlyProjectionData in
src/components/Dashboard.tsx, specialized to one category: expenses in
[startOfMonth(subMonths(now, 6)), endOfMonth(subMonths(now, 1))],
summed in absolute value and divided by the constant 6. -/
def historicalAverage (txs : List Transaction) (now : Date) (cat : String) : ℚ :=
  sumAbs (txs.filter fun t =>
    decide (t.type = TxType.expense) &&
    isWithinInterval (parseISO t.date)
      (startOfMonth (addMonths now (-6))) (endOfMonth (addMonths now (-1))) &&
    decide (t.categoryId = cat)) / 6

/-- Total expense of one category inside the month with index j. -/
def monthlyTotal (txs : List Transaction) (cat : String) (j : ℤ) : ℚ :=
  sumAbs (txs.filter fun t =>
    decide (t.type = TxType.expense) &&
    isWithinInterval (parseISO t.date) (monthStart j) (monthEnd j) &&
    decide (t.categoryId = cat))

/-- Modelled from the spec: the rolling historical average is the sum
of the monthly expense totals of the category over the 12 complete
months ending the month before the reference date, divided by the
fixed constant 12 (months without transactions contribute 0). -/
def specRollingAverage (txs : List Transaction) (now : Date) (cat : String) : ℚ :=
  (∑ k ∈ Finset.range 12, monthlyTotal txs cat (monthIdx now - 12 + k)) / 12

theorem startOfMonth_addMonths (now : Date) (k : ℤ) :
    startOfMonth (addMonths now k) = monthStart (monthIdx now + k) := rfl

theorem endOfMonth_addMonths (now : Date) (k : ℤ) :
    endOfMonth (addMonths now k) = monthEnd (monthIdx now + k) := rfl

theorem sumAbs_nil : sumAbs [] = 0 := rfl

theorem sumAbs_cons (t : Transaction) (ts : List Transaction) :
    sumAbs (t :: ts) = |t.amount| + sumAbs ts := by
  simp [sumAbs]

theorem sumAbs_filter_cons (p : Transaction → Bool) (t : Transaction)
    (ts : List Transaction) :
    sumAbs ((t :: ts).filter p) =
      (if p t = true then |t.amount| else 0) + sumAbs (ts.filter p) := by
  rw [List.filter_cons]
  split
  · rw [sumAbs_cons]
  · rw [zero_add]

/-- One transaction's contribution to the window sum over months
a .. a+n-1 equals the sum of its contributions to the individual
monthly totals. -/
theorem indicator_window_eq_sum (t : Transaction) (cat : String) (a : ℤ) (n : ℕ) :
    (if (decide (t.type = TxType.expense) &&
        isWithinInterval (parseISO t.date) (monthStart a) (monthEnd (a + n - 1)) &&
        decide (t.categoryId = cat)) = true then |t.amount| else 0) =
    ∑ k ∈ Finset.range n,
      (if (decide (t.type = TxType.expense) &&
          isWithinInterval (parseISO t.date) (monthStart (a + k)) (monthEnd (a + k)) &&
          decide (t.categoryId = cat)) = true then |t.amount| else 0) := by
  simp only [Bool.and_eq_true, decide_eq_true_eq, isWithinInterval_month_iff]
  by_cases hP : t.type = TxType.expense
  · by_cases hC : t.categoryId = cat
    · by_cases hv : validDate t.date
      · simp only [hP, hC, hv, true_and, and_true]
        by_cases hin : a ≤ monthIdx t.date ∧ monthIdx t.date ≤ a + n - 1
        · rw [if_pos hin]
          have h2 : ∀ k : ℕ, ((a + (k : ℤ) ≤ monthIdx t.date ∧
              monthIdx t.date ≤ a + (k : ℤ))) ↔ k = (monthIdx t.date - a).toNat := by
            intro k
            omega
          simp only [h2]
          rw [Finset.sum_ite_eq' (Finset.range n) ((monthIdx t.date - a).toNat)
            (fun _ => |t.amount|)]
          rw [if_pos (Finset.mem_range.mpr (by omega))]
        · rw [if_neg hin]
          refine (Finset.sum_eq_zero fun k hk => ?_).symm
          have hk2 := Finset.mem_range.mp hk
          rw [if_neg (by omega)]
      · simp [hv]
    · simp [hC]
  · simp [hP]

/-- Adding one transaction to the ledger adds its indicator to each
monthly total. -/
theorem monthlyTotal_cons (t : Transaction) (ts : List Transaction)
    (cat : String) (j : ℤ) :
    monthlyTotal (t :: ts) cat j =
      (if (decide (t.type = TxType.expense) &&
          isWithinInterval (parseISO t.date) (monthStart j) (monthEnd j) &&
          decide (t.categoryId = cat)) = true then |t.amount| else 0) +
        monthlyTotal ts cat j :=
  sumAbs_filter_cons _ _ _

/-- The window sum over months a .. a+n-1 is the sum of the monthly
totals of those months. -/
theorem sumAbs_window_eq_sum_monthlyTotal (txs : List Transaction) (cat : String)
    (a b : ℤ) (n : ℕ) (hb : b = a + n - 1) :
    sumAbs (txs.filter fun t =>
      decide (t.type = TxType.expense) &&
      isWithinInterval (parseISO t.date) (monthStart a) (monthEnd b) &&
      decide (t.categoryId = cat)) =
    ∑ k ∈ Finset.range n, monthlyTotal txs cat (a + k) := by
  subst hb
  induction txs with
  | nil =>
    simp [sumAbs_nil, monthlyTotal, List.filter_nil]
  | cons t ts ih =>
    rw [sumAbs_filter_cons, ih]
    simp only [monthlyTotal_cons]
    rw [Finset.sum_add_distrib, indicator_window_eq_sum t cat a n]

/-! ### Period totals (stats) -/

/-- The period filter of the dashboard views: keep transactions whose
parsed date lies in the inclusive interval. -/
def periodFilter (txs : List Transaction) (start finish : Date) : List Transaction :=
  txs.filter fun t => isWithinInterval (parseISO t.date) start finish

structure Stats where
  income : ℚ
  expense : ℚ
  balance : ℚ
  fixedExpense : ℚ
  variableExpense : ℚ
deriving DecidableEq

/-- The stats memo of the Dashboard variant in src/unnamed/part_006:
income is the plain sum of income amounts, expense the sum of absolute
expense amounts, fixed the recurring part of the expenses, variable
the difference. -/
def computeStats (txs : List Transaction) : Stats :=
  { income := ((txs.filter fun t => decide (t.type = TxType.income)).map
      fun t => t.amount).sum
    expense := sumAbs (txs.filter fun t => decide (t.type = TxType.expense))
    balance := ((txs.filter fun t => decide (t.type = TxType.income)).map
      fun t => t.amount).sum -
      sumAbs (txs.filter fun t => decide (t.type = TxType.expense))
    fixedExpense := sumAbs ((txs.filter fun t =>
      decide (t.type = TxType.expense)).filter fun t => t.isRecurring)
    variableExpense := sumAbs (txs.filter fun t => decide (t.type = TxType.expense)) -
      sumAbs ((txs.filter fun t =>
        decide (t.type = TxType.expense)).filter fun t => t.isRecurring) }

/-- Splitting a filtered sum of absolute amounts along a second
predicate. -/
theorem sumAbs_filter_split (txs : List Transaction) (p q : Transaction → Bool) :
    sumAbs (txs.filter fun t => p t && q t) +
      sumAbs (txs.filter fun t => p t && !q t) =
    sumAbs (txs.filter p) := by
  induction txs with
  | nil => simp [sumAbs_nil]
  | cons t ts ih =>
    rw [sumAbs_filter_cons, sumAbs_filter_cons, sumAbs_filter_cons]
    by_cases hp : p t = true
    · by_cases hq : q t = true
      · simp only [hp, hq, Bool.and_self, Bool.not_true, Bool.and_false, Bool.true_and,
          if_true, if_false, Bool.false_eq_true]
        linarith [ih]
      · have hq2 : q t = false := by simpa using hq
        simp only [hp, hq2, Bool.true_and, Bool.not_false, if_true, if_false,
          Bool.false_eq_true]
        linarith [ih]
    · have hp2 : p t = false := by simpa using hp
      simp only [hp2, Bool.false_and, if_false, Bool.false_eq_true]
      linarith [ih]

/-! ### Run-rate projection (month 0 of monthlyProjectionData) -/

/-- Spend so far of one category in the current month
(currentMonthActuals in Dashboard.tsx): absolute expense amounts inside
[startOfMonth(now), endOfMonth(now)]. -/
def currentMonthActual (txs : List Transaction) (now : Date) (cat : String) : ℚ :=
  sumAbs (txs.filter fun t =>
    decide (t.type = TxType.expense) &&
    isWithinInterval (parseISO t.date) (startOfMonth now) (endOfMonth now) &&
    decide (t.categoryId = cat))

/-- JS Math.round: floor of x + 1/2. -/
def jsRound (q : ℚ) : ℤ := ⌊q + 1/2⌋

/-- The i = 0 cell of monthlyProjectionData in Dashboard.tsx for one
category: Math.round(estimate || historicalAverage || 0), where
estimate = (actual / max(currentDay, 1)) * daysInMonth and the JS
or-operator returns its left operand unless that operand is zero. -/
def runRateCell (txs : List Transaction) (now : Date) (cat : String) : ℤ :=
  jsRound
    (if currentMonthActual txs now cat / ((max now.d 1 : ℤ) : ℚ) *
        ((daysInMonth now.y now.m : ℤ) : ℚ) ≠ 0 then
      currentMonthActual txs now cat / ((max now.d 1 : ℤ) : ℚ) *
        ((daysInMonth now.y now.m : ℤ) : ℚ)
    else if historicalAverage txs now cat ≠ 0 then historicalAverage txs now cat
    else 0)

/-! ### Retroactive update propagator -/

/-- Partial update record (Partial of RecurringTransaction) as handed
to handleUpdateRecurringWithImpact.  A present field overwrites, an
absent one keeps the old value; for startDate and endDate the call site
may pass an explicitly undefined value, modelled as some none. -/
structure RecurringUpdates where
  description : Option String
  amount : Option ℚ
  categoryId : Option String
  type : Option TxType
  dayOfMonth : Option ℤ
  startDate : Option (Option Date)
  endDate : Option (Option Date)
deriving DecidableEq

/-- Merge of a template with a partial update (the object spread in
updateRecurring of useFinanceData.ts). -/
def updateRecurringItem (r : RecurringTemplate) (u : RecurringUpdates) :
    RecurringTemplate :=
  { r with
    description := u.description.getD r.description
    amount := u.amount.getD r.amount
    categoryId := u.categoryId.getD r.categoryId
    type := u.type.getD r.type
    dayOfMonth := u.dayOfMonth.getD r.dayOfMonth
    startDate := u.startDate.getD r.startDate
    endDate := u.endDate.getD r.endDate }

/-- updateRecurring from useFinanceData.ts. -/
def updateRecurring (rs : List RecurringTemplate) (id : String)
    (u : RecurringUpdates) : List RecurringTemplate :=
  rs.map fun r => if r.id = id then updateRecurringItem r u else r

/-- The per-transaction rewrite inside handleUpdateRecurringWithImpact:
description and categoryId take the update when present, amount is
recomputed from the new magnitude with the sign dictated by the
transaction's own type; id, date, type, isRecurring and recurringId are
untouched by the object spread. -/
def rewriteTransaction (u : RecurringUpdates) (t : Transaction) : Transaction :=
  { t with
    description := u.description.getD t.description
    amount := match u.amount with
      | some a => if t.type = TxType.expense then -|a| else |a|
      | none => t.amount
    categoryId := u.categoryId.getD t.categoryId }

/-- updateTransaction from useFinanceData.ts, applied with a complete
replacement record (the handler passes the whole rewritten transaction,
so the spread replaces every field). -/
def updateTransactionList (txs : List Transaction) (id : String)
    (newT : Transaction) : List Transaction :=
  txs.map fun t => if t.id = id then newT else t

/-- The in-memory state the handler touches. -/
structure FinState where
  transactions : List Transaction
  recurring : List RecurringTemplate

/-- handleUpdateRecurringWithImpact from src/App.tsx: the template list
is updated through updateRecurring; when impactPast is set, every
transaction with the matching recurringId is rewritten and written back
through one updateTransaction call each (a fold of functional state
updates). -/
def handleUpdateRecurringWithImpact (s : FinState) (id : String)
    (u : RecurringUpdates) (impactPast : Bool) : FinState :=
  { recurring := updateRecurring s.recurring id u
    transactions :=
      if impactPast then
        ((s.transactions.filter fun t => decide (t.recurringId = some id)).map
          fun t => rewriteTransaction u t).foldl
          (fun acc t => updateTransactionList acc t.id t) s.transactions
      else s.transactions }

theorem updateTransactionList_getElem (txs : List Transaction) (id : String)
    (newT : Transaction) (k : ℕ) :
    (updateTransactionList txs id newT)[k]? =
      txs[k]?.map fun x => if x.id = id then newT else x := by
  unfold updateTransactionList
  rw [List.getElem?_map]

/-- Position k of the fold of updateTransaction calls is the original
element at k pushed through the chain of conditional replacements. -/
theorem foldl_update_getElem (reps : List Transaction) :
    ∀ (txs : List Transaction) (k : ℕ),
      (reps.foldl (fun acc t => updateTransactionList acc t.id t) txs)[k]? =
        txs[k]?.map fun x =>
          reps.foldl (fun x r => if x.id = r.id then r else x) x := by
  induction reps with
  | nil =>
    intro txs k
    rw [List.foldl_nil]
    cases txs[k]? <;> rfl
  | cons r rs ih =>
    intro txs k
    rw [List.foldl_cons, ih, updateTransactionList_getElem, Option.map_map]
    rfl

theorem foldl_update_length (reps : List Transaction) :
    ∀ txs : List Transaction,
      (reps.foldl (fun acc t => updateTransactionList acc t.id t) txs).length =
        txs.length := by
  induction reps with
  | nil => intro txs; rfl
  | cons r rs ih =>
    intro txs
    rw [List.foldl_cons, ih]
    unfold updateTransactionList
    rw [List.length_map]

theorem foldl_replace_of_no_match :
    ∀ (reps : List Transaction) (x : Transaction),
      (∀ r ∈ reps, x.id ≠ r.id) →
      reps.foldl (fun x r => if x.id = r.id then r else x) x = x := by
  intro reps
  induction reps with
  | nil => intro x _; rfl
  | cons r rs ih =>
    intro x h
    rw [List.foldl_cons, if_neg (h r (List.mem_cons_self r rs))]
    exact ih x fun r2 hr2 => h r2 (List.mem_cons_of_mem r hr2)

theorem foldl_replace_single_match (l₁ l₂ : List Transaction)
    (rep x : Transaction) (hx : x.id = rep.id)
    (h1 : ∀ r ∈ l₁, x.id ≠ r.id) (h2 : ∀ r ∈ l₂, rep.id ≠ r.id) :
    (l₁ ++ rep :: l₂).foldl (fun x r => if x.id = r.id then r else x) x = rep := by
  rw [List.foldl_append, foldl_replace_of_no_match l₁ x h1, List.foldl_cons,
    if_pos hx, foldl_replace_of_no_match l₂ rep h2]

/-! ### Concrete inputs used by counterexamples and witnesses -/

/-- A template whose fixed day (31) exceeds the length of several months
in its scan window. -/
def tplDay31 : RecurringTemplate :=
  ⟨"r1", "Aluguel", 10, "cat-outras-despesas", TxType.expense, 31, true,
    some ⟨2023, 11, 15⟩, none⟩

/-- The same template with a day that fits every month. -/
def tplDay5 : RecurringTemplate := { tplDay31 with dayOfMonth := 5 }

def todayJan2024 : Date := ⟨2024, 1, 15⟩

/-- A template whose startDate lies more than 12 months before the
reference date below. -/
def tplWindow : RecurringTemplate :=
  ⟨"r2", "Luz", 10, "cat-outras-despesas", TxType.expense, 5, true,
    some ⟨2025, 8, 1⟩, none⟩

def todayOct2026 : Date := ⟨2026, 10, 11⟩

/-- A template with an end date in mid June 2024. -/
def tplEnd : RecurringTemplate :=
  ⟨"r3", "Gas", 10, "cat-outras-despesas", TxType.expense, 5, true,
    some ⟨2024, 4, 1⟩, some ⟨2024, 6, 15⟩⟩

def todayMay2024 : Date := ⟨2024, 5, 10⟩

/-- A day-31 template used on a February month cursor. -/
def tplFeb : RecurringTemplate :=
  ⟨"r4", "Assinatura", 10, "cat-outras-despesas", TxType.expense, 31, true,
    none, none⟩

/-! ### Claim C1: idempotence of materialization -/

/-- C1 counterexample: as stated, idempotence fails on the code.  For a
day-31 template the November and February launches carry the invalid
dates 2023-11-31 and 2024-02-31, parseISO rejects them, the dedup check
cannot see them, and a second materialization run over the union of the
ledger with the first output synthesizes them again. -/
theorem materialize_idempotence_cex :
    materialize [tplDay31] ([] ++ materialize [tplDay31] [] todayJan2024)
      todayJan2024 ≠ [] := by decide

/-- C1 amended: whenever every transaction of the first run carries a
valid calendar date (equivalently, no scanned month is shorter than the
template's dayOfMonth), a second materialization over the union of the
ledger and the first output synthesizes nothing. -/
theorem materialize_idempotent_of_validDates
    (T : List RecurringTemplate) (X : List Transaction) (today : Date)
    (h : ∀ t ∈ materialize T X today, validDate t.date) :
    materialize T (X ++ materialize T X today) today = [] := by
  have hout : ∀ item ∈ T, ∀ t ∈ materializeTemplate item X today,
      t ∈ materialize T X today := by
    intro item hitem t ht
    exact List.mem_flatMap.mpr ⟨item, hitem, ht⟩
  have hnil : ∀ item ∈ T,
      materializeTemplate item (X ++ materialize T X today) today = [] := by
    intro item hitem
    by_cases hact : item.active
    · rw [materializeTemplate_active hact]
      apply materializeLoop_append_eq_nil h
      intro t ht
      apply hout item hitem
      rw [materializeTemplate_active hact]
      exact ht
    · unfold materializeTemplate
      rw [if_neg hact]
  exact List.flatMap_eq_nil_iff.mpr hnil

/-- C1 witness: a concrete second run that is provably empty via the
amended theorem. -/
theorem materialize_idempotent_witness :
    materialize [tplDay5] ([] ++ materialize [tplDay5] [] todayJan2024)
      todayJan2024 = [] :=
  materialize_idempotent_of_validDates [tplDay5] [] todayJan2024 (by decide)

/-! ### Claim C2: the scan window -/

/-- C2 counterexample: a template whose startDate lies 14 months in the
past is scanned from that startDate month (there is no clamp to
today minus 12 months), so a synthesized transaction is dated before
today minus 12 months, outside the window the claim states. -/
theorem materialize_window_cex :
    ((materialize [tplWindow] [] todayOct2026).any fun t =>
      decide (dateLt t.date (addMonths todayOct2026 (-12)))) = true := by decide

/-- C2 amended: the walk of an active template covers exactly the
months from the month of its startDate (the month of today minus 12
months when startDate is absent) through the month of
addMonths(today, 1) — not today plus 13 months.  First half: every
synthesized transaction has its month inside those bounds.  Second
half: every month in that range that is not past the end date and has
no existing launch does get its transaction synthesized. -/
theorem materialize_month_window (T : List RecurringTemplate)
    (X : List Transaction) (today : Date) :
    (∀ t ∈ materialize T X today, ∃ item ∈ T, item.active = true ∧
      t.recurringId = some item.id ∧
      scanStartIdx item today ≤ monthIdx t.date ∧
      monthIdx t.date ≤ monthIdx today + 1) ∧
    (∀ item ∈ T, item.active = true →
      ∀ j, scanStartIdx item today ≤ j →
        dateLe (monthStart j) (addMonths today 1) →
        (∀ e, item.endDate = some e → ¬ dateLt e (monthStart j)) →
        alreadyLaunched X item j = false →
        generateRecurringTransaction item (monthStart j) ∈
          materialize T X today) := by
  constructor
  · intro t ht
    unfold materialize at ht
    obtain ⟨item, hitem, hmem⟩ := List.mem_flatMap.mp ht
    by_cases hact : item.active
    · rw [materializeTemplate_active hact] at hmem
      obtain ⟨j, hij, hguard, hend, hAL, hteq⟩ := mem_materializeLoop hmem
      refine ⟨item, hitem, hact, ?_, ?_, ?_⟩
      · rw [hteq]; rfl
      · rw [hteq, monthIdx_generated, monthIdx_monthStart]
        omega
      · rw [hteq, monthIdx_generated, monthIdx_monthStart]
        have hfl := monthIdx_addMonths today 1
        unfold dateLe at hguard
        rw [monthIdx_monthStart] at hguard
        omega
    · unfold materializeTemplate at hmem
      rw [if_neg hact] at hmem
      simp at hmem
  · intro item hitem hact j hsj hguard hend hAL
    have hjfl : j ≤ monthIdx (addMonths today 1) := by
      unfold dateLe at hguard
      rw [monthIdx_monthStart] at hguard
      omega
    have hmem : generateRecurringTransaction item (monthStart j) ∈
        materializeTemplate item X today := by
      rw [materializeTemplate_active hact]
      exact materializeLoop_generates _ (scanStartIdx item today) j
        (by omega) hsj hguard hend hAL
    exact List.mem_flatMap.mpr ⟨item, hitem, hmem⟩

/-- C2 witness: the amended window bound applied to the August 2025
launch of the concrete template (month index 24307 is August 2025). -/
theorem materialize_month_window_witness :
    ∃ item ∈ [tplWindow], item.active = true ∧
      (generateRecurringTransaction tplWindow (monthStart 24307)).recurringId
        = some item.id ∧
      scanStartIdx item todayOct2026 ≤
        monthIdx (generateRecurringTransaction tplWindow (monthStart 24307)).date ∧
      monthIdx (generateRecurringTransaction tplWindow (monthStart 24307)).date ≤
        monthIdx todayOct2026 + 1 :=
  (materialize_month_window [tplWindow] [] todayOct2026).1
    (generateRecurringTransaction tplWindow (monthStart 24307)) (by decide)

/-! ### Claim C3: day clamping -/

/-- C3: the code performs no clamping.  For a day-31 template on the
February 2024 cursor the synthesized date is the triple 2024-02-31,
which is not a valid calendar date and in particular is not the clamped
2024-02-29 the claim requires. -/
theorem generateRecurring_feb_no_clamp :
    (generateRecurringTransaction tplFeb ⟨2024, 2, 1⟩).date = ⟨2024, 2, 31⟩ ∧
    ¬ validDate (⟨2024, 2, 31⟩ : Date) ∧
    (generateRecurringTransaction tplFeb ⟨2024, 2, 1⟩).date ≠ ⟨2024, 2, 29⟩ := by
  decide

/-! ### Claim C8: end date respect -/

/-- C8: for a template with an end date, every transaction its
materialization synthesizes has a month index at most the month index
of the end date: nothing is generated for a month strictly after the
month containing endDate. -/
theorem materialize_respects_endDate (item : RecurringTemplate)
    (txs : List Transaction) (today : Date) (e : Date)
    (he : item.endDate = some e) :
    ∀ t ∈ materializeTemplate item txs today, monthIdx t.date ≤ monthIdx e := by
  intro t ht
  by_cases hact : item.active
  · rw [materializeTemplate_active hact] at ht
    obtain ⟨j, hij, hguard, hend, hAL, hteq⟩ := mem_materializeLoop ht
    have h1 := hend e he
    unfold dateLt at h1
    rw [monthIdx_monthStart] at h1
    have hd : (monthStart j).d = 1 := rfl
    rw [hd] at h1
    rw [hteq, monthIdx_generated, monthIdx_monthStart]
    omega
  · unfold materializeTemplate at ht
    rw [if_neg hact] at ht
    simp at ht

/-- C8 witness: the June 2024 bound applied to the April 2024 launch of
the concrete end-dated template (month index 24291 is April 2024). -/
theorem materialize_respects_endDate_witness :
    monthIdx (generateRecurringTransaction tplEnd (monthStart 24291)).date ≤
      monthIdx (⟨2024, 6, 15⟩ : Date) :=
  materialize_respects_endDate tplEnd [] todayMay2024 ⟨2024, 6, 15⟩ rfl
    (generateRecurringTransaction tplEnd (monthStart 24291)) (by decide)

/-! ### Claim C4: the rolling historical average -/

/-- A single expense of 60 in July 2026, three months before the
October 2026 reference date. -/
def txC4 : Transaction :=
  ⟨"t1", ⟨2026, 7, 10⟩, "Mercado", -60, "cat-comida", TxType.expense, false, none⟩

/-- C4 counterexample: the historical average used by the Dashboard
projection averages over 6 complete months with divisor 6, not over 12
with divisor 12: on a single 60 expense three months back it yields 10
where the 12-month formula of the claim yields 5. -/
theorem rollingAverage_cex :
    historicalAverage [txC4] todayOct2026 "cat-comida" ≠
      specRollingAverage [txC4] todayOct2026 "cat-comida" := by
  have hfil6 : ([txC4].filter fun t =>
      decide (t.type = TxType.expense) &&
      isWithinInterval (parseISO t.date)
        (startOfMonth (addMonths todayOct2026 (-6)))
        (endOfMonth (addMonths todayOct2026 (-1))) &&
      decide (t.categoryId = "cat-comida")) = [txC4] := by decide
  have hfil12 : ([txC4].filter fun t =>
      decide (t.type = TxType.expense) &&
      isWithinInterval (parseISO t.date)
        (monthStart (monthIdx todayOct2026 - 12))
        (monthEnd (monthIdx todayOct2026 - 1)) &&
      decide (t.categoryId = "cat-comida")) = [txC4] := by decide
  unfold historicalAverage specRollingAverage
  rw [← sumAbs_window_eq_sum_monthlyTotal [txC4] "cat-comida"
    (monthIdx todayOct2026 - 12) (monthIdx todayOct2026 - 1) 12 (by omega)]
  rw [hfil6, hfil12]
  norm_num [sumAbs, txC4]

/-- C4 amended: the PlanningView average does follow the claimed
formula, the months being the 12 complete months ending the month
before the reference date and the divisor the fixed 12; the historical
average feeding the Dashboard projection instead sums the 6 complete
months ending the month before the reference date and divides by the
fixed 6. -/
theorem rollingAverage_amended (txs : List Transaction) (now : Date) (cat : String) :
    category12MonthAverage txs now cat = specRollingAverage txs now cat ∧
    historicalAverage txs now cat =
      (∑ k ∈ Finset.range 6, monthlyTotal txs cat (monthIdx now - 6 + k)) / 6 := by
  constructor
  · unfold category12MonthAverage specRollingAverage
    rw [startOfMonth_addMonths, endOfMonth_addMonths]
    rw [sumAbs_window_eq_sum_monthlyTotal txs cat
      (monthIdx now + (-12)) (monthIdx now + (-1)) 12 (by omega)]
    simp only [sub_eq_add_neg]
  · unfold historicalAverage
    rw [startOfMonth_addMonths, endOfMonth_addMonths]
    rw [sumAbs_window_eq_sum_monthlyTotal txs cat
      (monthIdx now + (-6)) (monthIdx now + (-1)) 6 (by omega)]
    simp only [sub_eq_add_neg]

/-! ### Claim C5: period totals -/

/-- C5: over any period filter, income is the sum of income amounts,
expense the sum of absolute expense amounts, balance their difference,
fixed the recurring part of the expenses, and variable both the
difference expense minus fixed and the sum over the non-recurring
expenses. -/
theorem computeStats_spec (txs : List Transaction) (start finish : Date) :
    (computeStats (periodFilter txs start finish)).income =
      (((periodFilter txs start finish).filter fun t =>
        decide (t.type = TxType.income)).map fun t => t.amount).sum ∧
    (computeStats (periodFilter txs start finish)).expense =
      sumAbs ((periodFilter txs start finish).filter fun t =>
        decide (t.type = TxType.expense)) ∧
    (computeStats (periodFilter txs start finish)).balance =
      (computeStats (periodFilter txs start finish)).income -
        (computeStats (periodFilter txs start finish)).expense ∧
    (computeStats (periodFilter txs start finish)).fixedExpense =
      sumAbs ((periodFilter txs start finish).filter fun t =>
        decide (t.type = TxType.expense) && t.isRecurring) ∧
    (computeStats (periodFilter txs start finish)).variableExpense =
      (computeStats (periodFilter txs start finish)).expense -
        (computeStats (periodFilter txs start finish)).fixedExpense ∧
    (computeStats (periodFilter txs start finish)).variableExpense =
      sumAbs ((periodFilter txs start finish).filter fun t =>
        decide (t.type = TxType.expense) && !t.isRecurring) := by
  have hcomm : ((periodFilter txs start finish).filter fun t =>
      decide (t.type = TxType.expense)).filter (fun t => t.isRecurring) =
      (periodFilter txs start finish).filter fun t =>
        decide (t.type = TxType.expense) && t.isRecurring := by
    rw [List.filter_filter]
    exact List.filter_congr fun a _ => Bool.and_comm _ _
  refine ⟨rfl, rfl, rfl, ?_, rfl, ?_⟩
  · show sumAbs _ = _
    rw [hcomm]
  · show sumAbs (List.filter _ _) - sumAbs (List.filter _ (List.filter _ _)) = _
    rw [hcomm]
    have hsplit := sumAbs_filter_split (periodFilter txs start finish)
      (fun t => decide (t.type = TxType.expense)) (fun t => t.isRecurring)
    linarith [hsplit]

/-! ### Claim C6: retroactive propagation with impactPast -/

/-- C6: with impactPast and a full update record, position k of the
transaction list keeps its length; a transaction whose recurringId
matches the edited template id receives the new description and
categoryId and an amount rebuilt from the new magnitude with the sign
of its own type, all other fields (in particular the date) unchanged; a
transaction with any other recurringId is untouched.  Transaction ids
are assumed pairwise distinct, which the ledger guarantees. -/
theorem impactPast_rewrites_matching (s : FinState) (tid : String)
    (u : RecurringUpdates) (d c : String) (a : ℚ)
    (hd : u.description = some d) (ha : u.amount = some a)
    (hc : u.categoryId = some c)
    (hN : (s.transactions.map fun t => t.id).Nodup)
    (k : ℕ) (t : Transaction) (hk : s.transactions[k]? = some t) :
    (handleUpdateRecurringWithImpact s tid u true).transactions.length =
      s.transactions.length ∧
    (t.recurringId = some tid →
      (handleUpdateRecurringWithImpact s tid u true).transactions[k]? =
        some { t with
          description := d
          amount := if t.type = TxType.expense then -|a| else |a|
          categoryId := c }) ∧
    (t.recurringId ≠ some tid →
      (handleUpdateRecurringWithImpact s tid u true).transactions[k]? = some t) := by
  have htx : (handleUpdateRecurringWithImpact s tid u true).transactions =
      ((s.transactions.filter fun t => decide (t.recurringId = some tid)).map
        fun t => rewriteTransaction u t).foldl
        (fun acc t => updateTransactionList acc t.id t) s.transactions := rfl
  have hrw : rewriteTransaction u t =
      { t with
        description := d
        amount := if t.type = TxType.expense then -|a| else |a|
        categoryId := c } := by
    unfold rewriteTransaction
    rw [hd, ha, hc]
    rfl
  have hids : ((s.transactions.filter fun t =>
      decide (t.recurringId = some tid)).map fun t => rewriteTransaction u t).map
        (fun r => r.id) =
      (s.transactions.filter fun t => decide (t.recurringId = some tid)).map
        (fun t => t.id) := by
    rw [List.map_map]
    rfl
  refine ⟨?_, ?_, ?_⟩
  · rw [htx, foldl_update_length]
  · intro hmatch
    rw [htx, foldl_update_getElem, hk, Option.map_some']
    have htmem : t ∈ s.transactions := List.getElem?_mem hk
    have htfil : t ∈ s.transactions.filter fun t =>
        decide (t.recurringId = some tid) :=
      List.mem_filter.mpr ⟨htmem, by simp [hmatch]⟩
    have hmem : rewriteTransaction u t ∈
        (s.transactions.filter fun t => decide (t.recurringId = some tid)).map
          fun t => rewriteTransaction u t :=
      List.mem_map.mpr ⟨t, htfil, rfl⟩
    obtain ⟨l₁, l₂, hsplit⟩ := List.append_of_mem hmem
    have hrepsN : (((s.transactions.filter fun t =>
        decide (t.recurringId = some tid)).map fun t =>
          rewriteTransaction u t).map (fun r => r.id)).Nodup := by
      rw [hids]
      exact ((List.filter_sublist s.transactions).map fun t => t.id).nodup hN
    rw [hsplit] at hrepsN
    rw [List.map_append, List.map_cons, List.nodup_append] at hrepsN
    obtain ⟨hN1, hN2, hdisj⟩ := hrepsN
    rw [List.nodup_cons] at hN2
    have h1 : ∀ r ∈ l₁, t.id ≠ r.id := by
      intro r hr heq
      exact hdisj (List.mem_map.mpr ⟨r, hr, rfl⟩)
        (by rw [List.mem_cons]; left; exact heq.symm)
    have h2 : ∀ r ∈ l₂, (rewriteTransaction u t).id ≠ r.id := by
      intro r hr heq
      exact hN2.1 (by rw [heq]; exact List.mem_map.mpr ⟨r, hr, rfl⟩)
    rw [hsplit, foldl_replace_single_match l₁ l₂ (rewriteTransaction u t) t rfl h1 h2,
      hrw]
  · intro hmatch
    rw [htx, foldl_update_getElem, hk, Option.map_some']
    have hnone : ∀ r ∈ (s.transactions.filter fun t =>
        decide (t.recurringId = some tid)).map fun t => rewriteTransaction u t,
        t.id ≠ r.id := by
      intro r hr heq
      obtain ⟨x, hxfil, hxeq⟩ := List.mem_map.mp hr
      have hxmem := List.mem_filter.mp hxfil
      have hxid : x.id = t.id := by rw [← hxeq] at heq; exact heq.symm
      have hxt : x = t :=
        List.inj_on_of_nodup_map hN hxmem.1 (List.getElem?_mem hk) hxid
      rw [hxt] at hxmem
      have := hxmem.2
      simp at this
      exact hmatch this
    rw [foldl_replace_of_no_match _ t hnone]

/-! ### Claim C7: propagation isolation without impactPast -/

/-- C7: with impactPast unset, the transaction list is returned exactly
as it was, every field of every transaction included, and every
template other than the edited one is also untouched. -/
theorem impactFalse_frame (s : FinState) (tid : String) (u : RecurringUpdates) :
    (handleUpdateRecurringWithImpact s tid u false).transactions =
      s.transactions ∧
    ∀ (k : ℕ) (r : RecurringTemplate), s.recurring[k]? = some r → r.id ≠ tid →
      (handleUpdateRecurringWithImpact s tid u false).recurring[k]? = some r := by
  constructor
  · rfl
  · intro k r hk hne
    show (updateRecurring s.recurring tid u)[k]? = some r
    unfold updateRecurring
    rw [List.getElem?_map, hk, Option.map_some']
    rw [if_neg hne]

/-- A transaction generated by template r1, present in the ledger. -/
def txMatch : Transaction :=
  ⟨"a1", ⟨2024, 1, 31⟩, "Aluguel", -1200, "cat-outras-despesas",
    TxType.expense, true, some "r1"⟩

/-- An unrelated income transaction. -/
def txOther : Transaction :=
  ⟨"a2", ⟨2024, 1, 5⟩, "Salario", 5000, "cat-salario",
    TxType.income, false, none⟩

def stateC6 : FinState := ⟨[txMatch, txOther], []⟩

/-- The full update record PlanningView submits on a template edit. -/
def updC6 : RecurringUpdates :=
  ⟨some "Aluguel Novo", some 1500, some "cat-outras-despesas",
    some TxType.expense, some 15, some none, some none⟩

/-- C6 witness: the concrete matching transaction is rewritten with the
new description, categoryId, and the expense-signed new magnitude. -/
theorem impactPast_rewrites_matching_witness :
    (handleUpdateRecurringWithImpact stateC6 "r1" updC6 true).transactions[0]? =
      some { txMatch with
        description := "Aluguel Novo"
        amount := if txMatch.type = TxType.expense then -|(1500 : ℚ)| else |(1500 : ℚ)|
        categoryId := "cat-outras-despesas" } :=
  (impactPast_rewrites_matching stateC6 "r1" updC6 "Aluguel Novo"
    "cat-outras-despesas" 1500 rfl rfl rfl (by decide) 0 txMatch rfl).2.1 rfl

def tplC7 : RecurringTemplate :=
  ⟨"r9", "Internet", 99, "cat-outras-despesas", TxType.expense, 10, true,
    none, none⟩

def stateC7 : FinState := ⟨[txMatch], [tplC7]⟩

/-- C7 witness: the concrete transaction list is untouched by an
impactPast-free edit and an unrelated template survives unchanged. -/
theorem impactFalse_frame_witness :
    (handleUpdateRecurringWithImpact stateC7 "r1" updC6 false).transactions =
      stateC7.transactions ∧
    (handleUpdateRecurringWithImpact stateC7 "r1" updC6 false).recurring[0]? =
      some tplC7 :=
  ⟨(impactFalse_frame stateC7 "r1" updC6).1,
   (impactFalse_frame stateC7 "r1" updC6).2 0 tplC7 rfl (by decide)⟩

/-! ### Claim C9: the run-rate projection -/

/-- C9 amended: the month-0 projection cell is Math.round of the linear
run-rate estimate whenever the category has nonzero spend so far this
month; with zero spend the code falls back to Math.round of the 6-month
historical average (JS or-chaining), which the claim does not mention,
and the rounding means the cell is not in general equal to the raw
estimate. -/
theorem runRateCell_spec (txs : List Transaction) (now : Date) (cat : String) :
    (currentMonthActual txs now cat ≠ 0 →
      runRateCell txs now cat =
        jsRound (currentMonthActual txs now cat / ((max now.d 1 : ℤ) : ℚ) *
          ((daysInMonth now.y now.m : ℤ) : ℚ))) ∧
    (currentMonthActual txs now cat = 0 →
      runRateCell txs now cat = jsRound (historicalAverage txs now cat)) := by
  constructor
  · intro h
    have hmax : ((max now.d 1 : ℤ) : ℚ) ≠ 0 :=
      Int.cast_ne_zero.mpr (by omega)
    have hdim : ((daysInMonth now.y now.m : ℤ) : ℚ) ≠ 0 :=
      Int.cast_ne_zero.mpr (ne_of_gt (daysInMonth_pos now.y now.m))
    have hest : currentMonthActual txs now cat / ((max now.d 1 : ℤ) : ℚ) *
        ((daysInMonth now.y now.m : ℤ) : ℚ) ≠ 0 :=
      mul_ne_zero (div_ne_zero h hmax) hdim
    unfold runRateCell
    rw [if_pos hest]
  · intro h
    unfold runRateCell
    have hest : currentMonthActual txs now cat / ((max now.d 1 : ℤ) : ℚ) *
        ((daysInMonth now.y now.m : ℤ) : ℚ) = 0 := by
      rw [h, zero_div, zero_mul]
    rw [if_neg (not_not_intro hest)]
    by_cases hh : historicalAverage txs now cat ≠ 0
    · rw [if_pos hh]
    · rw [if_neg hh]
      push_neg at hh
      rw [hh]

/-- A single 100 expense on October 2 2026. -/
def txRun : Transaction :=
  ⟨"t2", ⟨2026, 10, 2⟩, "Mercado", -100, "cat-comida", TxType.expense, false, none⟩

/-- Reference date: October 3 2026, day 3 of a 31-day month. -/
def nowRun : Date := ⟨2026, 10, 3⟩

/-- C9 counterexample: with spend 100 on day 3 of a 31-day month the
raw run-rate value is 3100/3, but the code rounds it; the cell is the
integer 1033, not equal to the claimed quotient. -/
theorem runRate_cex :
    ((runRateCell [txRun] nowRun "cat-comida" : ℤ) : ℚ) ≠
      currentMonthActual [txRun] nowRun "cat-comida" / ((max nowRun.d 1 : ℤ) : ℚ) *
        ((daysInMonth nowRun.y nowRun.m : ℤ) : ℚ) := by
  have hfil : ([txRun].filter fun t =>
      decide (t.type = TxType.expense) &&
      isWithinInterval (parseISO t.date) (startOfMonth nowRun) (endOfMonth nowRun) &&
      decide (t.categoryId = "cat-comida")) = [txRun] := by decide
  have hact : currentMonthActual [txRun] nowRun "cat-comida" = 100 := by
    unfold currentMonthActual
    rw [hfil]
    norm_num [sumAbs, txRun]
  have hmax0 : (max nowRun.d 1 : ℤ) = 3 := by decide
  have hdim0 : daysInMonth nowRun.y nowRun.m = 31 := by decide
  have hcell : runRateCell [txRun] nowRun "cat-comida" = 1033 := by
    unfold runRateCell
    rw [hact, hmax0, hdim0]
    have hcond : (100 : ℚ) / ((3 : ℤ) : ℚ) * ((31 : ℤ) : ℚ) ≠ 0 := by norm_num
    rw [if_pos hcond]
    unfold jsRound
    rw [Int.floor_eq_iff]
    constructor <;> norm_num
  rw [hcell, hact, hmax0, hdim0]
  norm_num

/-- A single 300 expense early in September 2026 (a 30-day month). -/
def txRunW : Transaction :=
  ⟨"t3", ⟨2026, 9, 5⟩, "Mercado", -300, "cat-comida", TxType.expense, false, none⟩

/-- Reference date: day 10 of the 30-day September 2026. -/
def nowRunW : Date := ⟨2026, 9, 10⟩

/-- C9 witness: the amended statement on the concrete spec example,
spend 300 on day 10 of a 30-day month. -/
theorem runRateCell_spec_witness :
    runRateCell [txRunW] nowRunW "cat-comida" =
      jsRound (currentMonthActual [txRunW] nowRunW "cat-comida" /
        ((max nowRunW.d 1 : ℤ) : ℚ) * ((daysInMonth nowRunW.y nowRunW.m : ℤ) : ℚ)) :=
  (runRateCell_spec [txRunW] nowRunW "cat-comida").1 (by
    have hfil : ([txRunW].filter fun t =>
        decide (t.type = TxType.expense) &&
        isWithinInterval (parseISO t.date) (startOfMonth nowRunW) (endOfMonth nowRunW) &&
        decide (t.categoryId = "cat-comida")) = [txRunW] := by decide
    unfold currentMonthActual
    rw [hfil]
    norm_num [sumAbs, txRunW])

/-! ### Claim C10: the signed-amount convention -/

/-- C10: both the materializer and the impactPast rewrite produce an
amount that is minus the absolute magnitude exactly for the expense
type and plus the absolute magnitude for the income type, the type
field being preserved, so the sign of the amount always agrees with the
type. -/
theorem signedAmount_convention (item : RecurringTemplate) (cursor : Date)
    (u : RecurringUpdates) (a : ℚ) (t : Transaction) (ha : u.amount = some a) :
    (generateRecurringTransaction item cursor).type = item.type ∧
    (generateRecurringTransaction item cursor).amount =
      (if item.type = TxType.expense then -|item.amount| else |item.amount|) ∧
    (item.type = TxType.expense →
      (generateRecurringTransaction item cursor).amount ≤ 0) ∧
    (item.type = TxType.income →
      0 ≤ (generateRecurringTransaction item cursor).amount) ∧
    (rewriteTransaction u t).type = t.type ∧
    (rewriteTransaction u t).amount =
      (if t.type = TxType.expense then -|a| else |a|) ∧
    (t.type = TxType.expense → (rewriteTransaction u t).amount ≤ 0) ∧
    (t.type = TxType.income → 0 ≤ (rewriteTransaction u t).amount) := by
  have hgen : (generateRecurringTransaction item cursor).amount =
      (if item.type = TxType.expense then -|item.amount| else |item.amount|) := rfl
  have hrw : (rewriteTransaction u t).amount =
      (if t.type = TxType.expense then -|a| else |a|) := by
    unfold rewriteTransaction
    rw [ha]
  refine ⟨rfl, hgen, ?_, ?_, rfl, hrw, ?_, ?_⟩
  · intro he
    rw [hgen, if_pos he]
    exact neg_nonpos.mpr (abs_nonneg _)
  · intro hi
    rw [hgen, if_neg (show item.type ≠ TxType.expense by rw [hi]; decide)]
    exact abs_nonneg _
  · intro he
    rw [hrw, if_pos he]
    exact neg_nonpos.mpr (abs_nonneg _)
  · intro hi
    rw [hrw, if_neg (show t.type ≠ TxType.expense by rw [hi]; decide)]
    exact abs_nonneg _

/-- C10 witness: the expense sign on a concrete generated transaction. -/
theorem signedAmount_convention_witness :
    (generateRecurringTransaction tplDay5 ⟨2024, 1, 1⟩).amount ≤ 0 :=
  (signedAmount_convention tplDay5 ⟨2024, 1, 1⟩ updC6 1500 txMatch rfl).2.2.1 rfl

end FinanceFlow
